import Mathlib

/-!
# Verification of the CareerCompass AI orchestration core

Shallow embedding of `services/geminiService.ts` (the current revision of the
service module, the one containing `generateContentWithRetry`; the older
revision `src/services/geminiService.ts` shares the parser, fetcher and
response-handling code verbatim and differs only in pipeline staging).

Modelling conventions:
* JS strings are modelled as `List Char` (one `Char` per UTF-16 code unit of
  the source string; all string literals appearing in the code are ASCII).
* Network and model calls are suspension points whose outcomes are supplied
  by an environment record; the functions under verification are pure
  functions of that environment.
* A JS `throw`/rejected promise is an `Except .error`; `try/catch` is
  modelled by handling the `Except`.
* `JSON.parse` is an external deterministic function, modelled as an
  environment field `jsonParse : List Char → Option Json` (`none` = throws a
  `SyntaxError`).  Concrete counterexamples instantiate it only at strings
  where its value is forced by ECMA-404 (e.g. `"\x7b\x7d"` parses to the
  empty object).
-/

namespace CareerCompass

/-- `isPfx p s` : `p` is a prefix of `s` (JS `String.prototype.startsWith`). -/
def isPfx : List Char → List Char → Bool
  | [], _ => true
  | _ :: _, [] => false
  | a :: as, b :: bs => a == b && isPfx as bs

/-- `hasSubstr pat s` : `pat` occurs as a contiguous substring of `s`
(JS `String.prototype.includes`). -/
def hasSubstr (pat : List Char) : List Char → Bool
  | [] => isPfx pat []
  | c :: t => isPfx pat (c :: t) || hasSubstr pat t

/-- A thrown JS error value, as inspected by the retry wrapper:
`status` and `code` are the (optional) numeric fields, `message` the
(optional) `.message` string, `stringified` the value of
`JSON.stringify(error)`. -/
structure JsError where
  status : Option Nat
  code : Option Nat
  message : Option (List Char)
  stringified : List Char
deriving DecidableEq

/-- `const message = error.message || JSON.stringify(error)` — JS `||`
falls through on the empty string (falsy) and on an absent field. -/
def jsMessage (e : JsError) : List Char :=
  match e.message with
  | some m => if m = [] then e.stringified else m
  | none => e.stringified

/-- The quota/rate-limit test of `generateContentWithRetry`:
`error.status === 429 || error.code === 429 || message.includes('429') ||
message.includes('quota') || message.includes('RESOURCE_EXHAUSTED')`. -/
def isQuotaError (e : JsError) : Bool :=
  e.status == some 429 || e.code == some 429 ||
  hasSubstr "429".data (jsMessage e) ||
  hasSubstr "quota".data (jsMessage e) ||
  hasSubstr "RESOURCE_EXHAUSTED".data (jsMessage e)

/-- Outcome of one underlying `ai.models.generateContent(params)` call. -/
inductive CallResult (α : Type) where
  | ok (v : α)
  | thrown (e : JsError)
deriving DecidableEq

/-- Result of the retry wrapper: a returned value, a rethrown underlying
error, or the synthetic `Error("Max retries exceeded for Gemini API")` of
its final line. -/
inductive RetryResult (α : Type) where
  | ok (v : α)
  | thrown (e : JsError)
  | maxRetriesExceeded
deriving DecidableEq

/-- Observable steps taken by the retry wrapper: the `i`-th invocation of the
underlying invoker, and an `await wait(ms)` backoff sleep. -/
inductive REv where
  | attempt (i : Nat)
  | sleep (ms : Nat)
deriving DecidableEq

structure RetryOut (α : Type) where
  result : RetryResult α
  trace : List REv
deriving DecidableEq

/-- The `for (let i = 0; i < retries; i++)` loop of
`generateContentWithRetry`, structurally recursive on the number `rem + 1`
of remaining iterations (`rem + 1 = retries - i`); the source's guard
`i < retries - 1` is exactly `rem > 0`.  On attempt `i`: a success returns;
a quota error with attempts remaining sleeps `initialDelay * 2^i` and
retries; any other error (or a quota error on the last attempt) is
rethrown. -/
def retryAux {α : Type} (invoke : Nat → CallResult α) (initialDelay : Nat) :
    Nat → Nat → RetryOut α
  | _, 0 => ⟨.maxRetriesExceeded, []⟩
  | i, rem + 1 =>
    match invoke i with
    | .ok v => ⟨.ok v, [.attempt i]⟩
    | .thrown e =>
      if isQuotaError e && decide (0 < rem) then
        let rest := retryAux invoke initialDelay (i + 1) rem
        ⟨rest.result, .attempt i :: .sleep (initialDelay * 2 ^ i) :: rest.trace⟩
      else ⟨.thrown e, [.attempt i]⟩

/-- `generateContentWithRetry(ai, params, retries = 3, initialDelay = 2000)`.
The model-call parameters (`ai`, `params`) do not influence control flow and
are absorbed into the invoker `invoke`, whose argument is the attempt
index. -/
def generateContentWithRetry {α : Type} (invoke : Nat → CallResult α)
    (retries : Nat := 3) (initialDelay : Nat := 2000) : RetryOut α :=
  retryAux invoke initialDelay 0 retries

/-- The event trace laid down by `N` consecutive quota-failed attempts
starting at attempt index `i`: attempt `i`, sleep `initialDelay * 2^i`,
attempt `i+1`, sleep `initialDelay * 2^(i+1)`, … -/
def quotaBackoffTrace (initialDelay : Nat) : Nat → Nat → List REv
  | _, 0 => []
  | i, n + 1 =>
    .attempt i :: .sleep (initialDelay * 2 ^ i) :: quotaBackoffTrace initialDelay (i + 1) n

def isAttemptEv : REv → Bool
  | .attempt _ => true
  | .sleep _ => false

def isSleepEv : REv → Bool
  | .attempt _ => false
  | .sleep _ => true

/-- A pure rate-limit rejection: numeric status 429. -/
def quotaErr429 : JsError := ⟨some 429, none, none, []⟩

/-- A non-quota server error: status 500, message "boom". -/
def nonQuotaErr500 : JsError := ⟨some 500, none, some "boom".data, []⟩

/-- Mock invoker that fails with a quota error on attempts 0 and 1 and
succeeds on attempt 2. -/
def invokeQuotaTwiceThenOk : Nat → CallResult Nat :=
  fun k => if k < 2 then .thrown quotaErr429 else .ok 7

/-- Mock invoker that always fails with a non-quota error. -/
def invokeAlwaysNonQuota : Nat → CallResult Nat :=
  fun _ => .thrown nonQuotaErr500

/-! ## Reference parser (`parseGithubInput`) -/

/-- Whitespace as matched by the `\s` class and by `String.prototype.trim`
(restricted to the ASCII whitespace characters; the Unicode extras of `\s`
never occur in the inputs considered here). -/
def isJsSpace (c : Char) : Bool :=
  c == ' ' || c == '\t' || c == '\n' || c == '\r' || c == '\x0b' || c == '\x0c'

/-- A delimiter of the token split `input.split(/[\s,]+/)`. -/
def isDelimChar (c : Char) : Bool := isJsSpace c || c == ','

/-- `input.split(/[\s,]+/).filter(Boolean)`: maximal runs of non-delimiter
characters, with empty fragments (from leading/trailing/adjacent delimiters)
removed by `filter(Boolean)`.  `cur` is the reversed current fragment. -/
def tokenizeAux : List Char → List Char → List (List Char)
  | cur, [] => if cur = [] then [] else [cur.reverse]
  | cur, c :: t =>
    if isDelimChar c then
      if cur = [] then tokenizeAux [] t else cur.reverse :: tokenizeAux [] t
    else tokenizeAux (c :: cur) t

def tokenize (s : List Char) : List (List Char) := tokenizeAux [] s

/-- `link.trim()`. -/
def trimChars (s : List Char) : List Char :=
  ((s.dropWhile isJsSpace).reverse.dropWhile isJsSpace).reverse

/-- `clean.replace(/\/$/, '')`: drop a single trailing slash if present. -/
def stripTrailingSlash (s : List Char) : List Char :=
  if s.getLast? == some '/' then s.dropLast else s

/-- The character class `[a-zA-Z0-9-]` (owner). -/
def ownerChar (c : Char) : Bool := c.isAlpha || c.isDigit || c == '-'

/-- The character class `[a-zA-Z0-9-_\.]` (repo). -/
def repoChar (c : Char) : Bool := ownerChar c || c == '_' || c == '.'

/-- Match `([a-zA-Z0-9-]{1,39})\/([a-zA-Z0-9-_\.]+)` at the head of `s`,
returning the two capture groups.  Since `/` is not an owner character, the
greedy-with-backtracking `{1,39}` quantifier succeeds exactly when the
maximal owner-character run has length 1–39 and is followed by `/` and at
least one repo character (shorter backtracked owners are followed by an
owner character, never `/`). -/
def matchOwnerRepoAt (s : List Char) : Option (List Char × List Char) :=
  if (s.takeWhile ownerChar).length = 0 ∨ 39 < (s.takeWhile ownerChar).length then none
  else
    match s.drop (s.takeWhile ownerChar).length with
    | '/' :: rest =>
      if (rest.takeWhile repoChar).length = 0 then none
      else some (s.takeWhile ownerChar, rest.takeWhile repoChar)
    | _ => none

def firstSome {α : Type} (x y : Option α) : Option α :=
  match x with
  | some v => some v
  | none => y

def githubHostSlash : List Char := "github.com/".data

/-- The search of `clean.match(/(?:github\.com\/|^)([a-zA-Z0-9-]{1,39})\/([a-zA-Z0-9-_\.]+)/)`:
try each start position from the left; at a position, first the
`github.com\/` alternative (which may match anywhere), then the `^`
alternative (which matches only at the very start, tracked by `atStart`). -/
def matchRepoAux : List Char → Bool → Option (List Char × List Char)
  | [], _ => none
  | c :: t, atStart =>
    firstSome
      (if isPfx githubHostSlash (c :: t) then
        matchOwnerRepoAt ((c :: t).drop githubHostSlash.length)
       else none)
      (firstSome
        (if atStart then matchOwnerRepoAt (c :: t) else none)
        (matchRepoAux t false))

def matchRepo (s : List Char) : Option (List Char × List Char) :=
  matchRepoAux s true

/-- One parsed repository reference `{owner, repo, url}`. -/
structure RepoRef where
  owner : List Char
  repo : List Char
  url : List Char
deriving DecidableEq

/-- `` `https://github.com/${match[1]}/${match[2]}` ``. -/
def canonicalUrl (owner repo : List Char) : List Char :=
  "https://github.com/".data ++ owner ++ '/' :: repo

/-- The `repos` list accumulated by the `rawLinks.forEach` loop: for each
token, trim, strip one trailing slash, run the regex, and on a match push
`{owner, repo, url}`. -/
def matchedRefs (input : List Char) : List RepoRef :=
  (tokenize input).filterMap fun link =>
    (matchRepo (stripTrailingSlash (trimChars link))).map fun p =>
      ⟨p.1, p.2, canonicalUrl p.1 p.2⟩

/-- `unique.set(r.url, r)` on a JS `Map` modelled as an insertion-ordered
association list: an existing key keeps its position and gets the new value;
a new key is appended. -/
def mapSet (m : List (List Char × RepoRef)) (k : List Char) (v : RepoRef) :
    List (List Char × RepoRef) :=
  if m.any (fun p => p.1 == k) then
    m.map (fun p => if p.1 == k then (k, v) else p)
  else m ++ [(k, v)]

/-- `repos.forEach(r => unique.set(r.url, r))`. -/
def insertAll (rs : List RepoRef) : List (List Char × RepoRef) :=
  rs.foldl (fun m r => mapSet m r.url r) []

/-- `parseGithubInput`: split, match, deduplicate by canonical URL
(`Array.from(unique.values())` preserves key insertion order). -/
def parseGithubInput (input : List Char) : List RepoRef :=
  (insertAll (matchedRefs input)).map (fun p => p.2)

/-! ## Artifact fetcher (`fetchGithubRepoData`) -/

def truncationMarker : List Char := "\n...(truncated)...".data

/-- `content.length > 8000 ? content.slice(0, 8000) + "\n...(truncated)..." : content`. -/
def truncateContent (content : List Char) : List Char :=
  if 8000 < content.length then content.take 8000 ++ truncationMarker else content

/-- Result of `GET /repos/{owner}/{repo}` (the fields the code reads). -/
structure RepoMeta where
  name : List Char
  html_url : List Char
deriving DecidableEq

/-- One entry of the `GET /repos/{owner}/{repo}/contents` listing. -/
structure DirEntry where
  name : List Char
  type : List Char
  path : List Char
deriving DecidableEq

def interestingFiles : List (List Char) :=
  ["README.md".data, "package.json".data, "requirements.txt".data, "pyproject.toml".data,
   "main.py".data, "app.py".data, "server.js".data, "index.js".data, "App.tsx".data,
   "index.html".data, "go.mod".data, "Cargo.toml".data]

/-- `a.name.startsWith('README') ? 0 : a.name.includes('json') || a.name.includes('txt') ? 1 : 2`. -/
def fileScore (name : List Char) : Nat :=
  if isPfx "README".data name then 0
  else if hasSubstr "json".data name || hasSubstr "txt".data name then 1
  else 2

/-- `foundFiles.sort((a, b) => aScore - bScore)`: JS `Array.prototype.sort`
is stable (ES2019), so sorting by a 3-valued score is bucket concatenation
with the original order kept inside each bucket. -/
def sortByScore (files : List DirEntry) : List DirEntry :=
  files.filter (fun f => fileScore f.name == 0) ++
  files.filter (fun f => fileScore f.name == 1) ++
  files.filter (fun f => fileScore f.name == 2)

/-- Outcomes of the four kinds of network calls `fetchGithubRepoData`
makes.  `none` models a non-2xx response (for `fileContent` also a missing
/non-base64 content envelope or a thrown fetch, all of which
`fetchGithubFileContent` maps to `null`). -/
structure FetchEnv where
  meta : Option RepoMeta
  langs : Option (List (List Char × Nat))
  contents : Option (List DirEntry)
  fileContent : List Char → Option (List Char)

/-- The record returned on success, with the files bundle kept as the list
of appended `FILE:` blocks (pairs of path and truncated content); the
bundle string itself is `renderBundle` of this list. -/
structure RepoData where
  repo_name : List Char
  repo_url : List Char
  language_summary : List Char
  files_bundle_blocks : List (List Char × List Char)
deriving DecidableEq

/-- `Math.round((bytes / total) * 100)` in exact rational arithmetic:
`⌊bytes·100/total + 1/2⌋` (`Math.round` rounds half toward +∞; the source
computes in binary floating point, which agrees with the exact value for
realistic byte counts). -/
def roundPct (bytes total : Nat) : Nat := (200 * bytes + total) / (2 * total)

def natChars (n : Nat) : List Char := (Nat.repr n).data

/-- `` `${l} ${Math.round((bytes / total) * 100)}%` ``. -/
def langEntryText (total : Nat) (p : List Char × Nat) : List Char :=
  p.1 ++ ' ' :: (natChars (roundPct p.2 total) ++ "%".data)

def joinCommaSep : List (List Char) → List Char
  | [] => []
  | [x] => x
  | x :: y :: t => x ++ ", ".data ++ joinCommaSep (y :: t)

/-- `Object.entries(langs).map(([l, bytes]) => ...).slice(0, 5).join(", ")`
with `total` the sum of all byte counts. -/
def languageSummary (langs : List (List Char × Nat)) : List Char :=
  joinCommaSep ((langs.map (langEntryText ((langs.map Prod.snd).sum))).take 5)

/-- The `for (const file of targetFiles)` loop: fetch each file's content;
on success append the block `FILE: ${file.path}\n${truncated}\n\n`; a
failed fetch contributes nothing. -/
def bundleBlocks (fileContent : List Char → Option (List Char))
    (files : List DirEntry) : List (List Char × List Char) :=
  files.filterMap fun f => (fileContent f.path).map fun c => (f.path, truncateContent c)

def renderBlock (b : List Char × List Char) : List Char :=
  "FILE: ".data ++ b.1 ++ '\n' :: (b.2 ++ "\n\n".data)

def renderBundle : List (List Char × List Char) → List Char
  | [] => []
  | b :: t => renderBlock b ++ renderBundle t

/-- The filter selecting `foundFiles`:
`item.type === 'file' && interestingFiles.includes(item.name)`. -/
def isInterestingFile (it : DirEntry) : Bool :=
  it.type == "file".data && interestingFiles.contains it.name

/-- `fetchGithubRepoData(owner, repo)`: `!metaRes.ok` → `null`; a failed
languages fetch → empty summary (non-fatal); a failed listing fetch → empty
bundle; otherwise filter interesting root files, stable-sort by score, take
the first 4, fetch and truncate each. -/
def fetchGithubRepoData (env : FetchEnv) : Option RepoData :=
  match env.meta with
  | none => none
  | some meta =>
    some {
      repo_name := meta.name
      repo_url := meta.html_url
      language_summary :=
        match env.langs with
        | none => []
        | some langs => languageSummary langs
      files_bundle_blocks :=
        match env.contents with
        | none => []
        | some contents =>
          bundleBlocks env.fileContent
            ((sortByScore (contents.filter isInterestingFile)).take 4)
    }

/-- A metadata record for concrete test environments. -/
def demoMeta : RepoMeta := ⟨"demo".data, "https://github.com/u/demo".data⟩

/-- A languages mapping in ascending byte order: the final entry `F` holds
95% of all bytes. -/
def langsAscending : List (List Char × Nat) :=
  [("A".data, 1), ("B".data, 1), ("C".data, 1), ("D".data, 1),
   ("E".data, 1), ("F".data, 95)]

def cexFetchEnvLangs : FetchEnv :=
  { meta := some demoMeta
    langs := some langsAscending
    contents := none
    fileContent := fun _ => none }

/-- A languages mapping sorted by decreasing byte count, as the GitHub API
returns it. -/
def langsDesc : List (List Char × Nat) :=
  [("TypeScript".data, 60), ("Python".data, 40)]

/-- Environment where a README is listed but its content fetch fails, while
`package.json`'s succeeds. -/
def cexFetchEnvReadme : FetchEnv :=
  { meta := some demoMeta
    langs := none
    contents := some
      [⟨"README.md".data, "file".data, "README.md".data⟩,
       ⟨"package.json".data, "file".data, "package.json".data⟩]
    fileContent := fun p => if p == "package.json".data then some "x".data else none }

/-- Environment where both a README and `package.json` are listed and every
content fetch succeeds (content = path followed by `!`). -/
def okFetchEnvReadme : FetchEnv :=
  { meta := some demoMeta
    langs := none
    contents := some
      [⟨"package.json".data, "file".data, "package.json".data⟩,
       ⟨"README.md".data, "file".data, "README.md".data⟩]
    fileContent := fun p => some (p ++ "!".data) }

/-- A concrete 8001-character content for the C5 witness. -/
def longContent : List Char := List.replicate 8001 'a'

/-! ## JSON values and JS object semantics -/

/-- A JS value as far as the response-handling code observes it.  `undefinedVal`
is JS `undefined`: never produced by `JSON.parse`, but produced by reading
an absent property. -/
inductive Json where
  | null
  | undefinedVal
  | bool (b : Bool)
  | num (n : Int)
  | str (s : List Char)
  | arr (xs : List Json)
  | obj (fields : List (String × Json))

/-- Property read `j[k]` (as an `Option`; `none` = `undefined`). -/
def Json.getProp : Json → String → Option Json
  | .obj fs, k => (fs.find? (fun p => p.1 == k)).map Prod.snd
  | _, _ => none

/-- Property read defaulted to `undefined`. -/
def Json.getU (j : Json) (k : String) : Json := (j.getProp k).getD .undefinedVal

/-- JS truthiness (`if (x)`). -/
def Json.truthy : Json → Bool
  | .null => false
  | .undefinedVal => false
  | .bool b => b
  | .num n => !(n == 0)
  | .str s => !s.isEmpty
  | .arr _ => true
  | .obj _ => true

/-- Assign to / insert an object field, preserving JS property order
(existing keys keep their position). -/
def setField (fs : List (String × Json)) (k : String) (v : Json) :
    List (String × Json) :=
  if fs.any (fun p => p.1 == k) then fs.map (fun p => if p.1 == k then (k, v) else p)
  else fs ++ [(k, v)]

/-- Strict-mode JS property assignment `target[k] = v`: on a plain object
it sets the field; on an array it succeeds but the added non-index property
is invisible to the JSON view; on `null`, `undefined` or a primitive it
throws a `TypeError`. -/
def jsSetProp : Json → String → Json → Except Unit Json
  | .obj fs, k, v => .ok (.obj (setField fs k v))
  | .arr xs, _, _ => .ok (.arr xs)
  | _, _, _ => .error ()

mutual

/-- JS `String(v)` as used by template literals.  (The quirk that `null` /
`undefined` elements render as `""` inside `Array.prototype.toString` is
not modelled; no claim depends on rendered values.) -/
def jsToTextV : Json → List Char
  | .null => "null".data
  | .undefinedVal => "undefined".data
  | .bool b => if b then "true".data else "false".data
  | .num n => (toString n).data
  | .str s => s
  | .arr xs => jsToTextArr xs
  | .obj _ => "[object Object]".data

/-- Array elements joined with `,`. -/
def jsToTextArr : List Json → List Char
  | [] => []
  | [x] => jsToTextV x
  | x :: y :: t => jsToTextV x ++ ",".data ++ jsToTextArr (y :: t)

end

/-- `${x}` where `x` is a property-read result. -/
def jsToText : Option Json → List Char
  | none => "undefined".data
  | some v => jsToTextV v

/-! ## Model responses and response-text handling -/

/-- The fields of a `generateContent` response the code reads: `.text` (may
be absent) and the inline audio payload
`candidates?.[0]?.content?.parts?.[0]?.inlineData?.data`. -/
structure GenResponse where
  text : Option (List Char)
  audioData : Option (List Char)

/-- Truthiness of `response.text`. -/
def textTruthy : Option (List Char) → Bool
  | none => false
  | some t => !t.isEmpty

/-- `response.text || dflt`. -/
def textOr (t : Option (List Char)) (dflt : List Char) : List Char :=
  match t with
  | some s => if s.isEmpty then dflt else s
  | none => dflt

/-- Strip a leading fence `pfx` together with the whitespace run the `\s*`
of the anchored regex consumes. -/
def stripFencePrefix (pfx : List Char) (s : List Char) : List Char :=
  if isPfx pfx s then (s.drop pfx.length).dropWhile isJsSpace else s

/-- `replace(/```$/, '')`: remove one trailing ``` fence. -/
def stripFenceSuffix (s : List Char) : List Char :=
  if isPfx "```".data.reverse s.reverse then s.take (s.length - 3) else s

/-- `cleanJson(text)`:
`text.replace(/^```json\s*/, '').replace(/^```\s*/, '').replace(/```$/, '').trim()`
(with `""` for a falsy input). -/
def cleanJson (text : List Char) : List Char :=
  if text.isEmpty then []
  else trimChars (stripFenceSuffix
    (stripFencePrefix "```".data (stripFencePrefix "```json".data text)))

/-- `cleanHtml(text)`: the same with an `html` fence. -/
def cleanHtml (text : List Char) : List Char :=
  if text.isEmpty then []
  else trimChars (stripFenceSuffix
    (stripFencePrefix "```".data (stripFencePrefix "```html".data text)))

/-- Is this outcome a rejection? -/
def isErrorResult {ε α : Type} : Except ε α → Bool
  | .error _ => true
  | .ok _ => false

/-- `throw new Error("No response from AI")`. -/
def noResponseError : JsError := ⟨none, none, some "No response from AI".data, []⟩

/-- A `SyntaxError` thrown by `JSON.parse` on unparseable text. -/
def syntaxError : JsError :=
  ⟨none, none, some "SyntaxError: Unexpected token in JSON".data, []⟩

/-- A strict-mode `TypeError` from assigning a property on a primitive. -/
def typeError : JsError :=
  ⟨none, none, some "TypeError: Cannot create property on a primitive".data, []⟩

/-- `throw new Error("Max retries exceeded for Gemini API")`. -/
def maxRetriesError : JsError :=
  ⟨none, none, some "Max retries exceeded for Gemini API".data, []⟩

/-! ## The primary pipeline (`analyzeProfile`), with event traces -/

/-- Observable suspension points of the pipeline, tagged by stage. -/
inductive Ev where
  | githubFetch (repoIdx : Nat)
  | artifactAttempt (repoIdx attempt : Nat)
  | artifactSleep (ms : Nat)
  | resumeAttempt (attempt : Nat)
  | resumeSleep (ms : Nat)
  | promptBuilt
  | mainAttempt (attempt : Nat)
  | mainSleep (ms : Nat)
deriving DecidableEq

def liftArtifactEv (j : Nat) : REv → Ev
  | .attempt i => .artifactAttempt j i
  | .sleep ms => .artifactSleep ms

def liftResumeEv : REv → Ev
  | .attempt i => .resumeAttempt i
  | .sleep ms => .resumeSleep ms

def liftMainEv : REv → Ev
  | .attempt i => .mainAttempt i
  | .sleep ms => .mainSleep ms

def isGithubStageEv : Ev → Bool
  | .githubFetch _ => true
  | .artifactAttempt _ _ => true
  | .artifactSleep _ => true
  | _ => false

def isResumeStageEv : Ev → Bool
  | .resumeAttempt _ => true
  | .resumeSleep _ => true
  | _ => false

def isMainStageEv : Ev → Bool
  | .promptBuilt => true
  | .mainAttempt _ => true
  | .mainSleep _ => true
  | _ => false

def isMainAttemptEv : Ev → Bool
  | .mainAttempt _ => true
  | _ => false

def evJoin : List (List Ev) → List Ev
  | [] => []
  | x :: t => x ++ evJoin t

/-- The environment of one `analyzeProfile` run: the inputs, plus the
outcome of every external call it may make.  `resumeFilePart` /
`mainFilePart` are the two `fileToGenerativePart(resume)` conversions (each
a separate asynchronous file read); the invokers give the outcome of the
`i`-th attempt of each wrapped model call; `jsonParse` is `JSON.parse`. -/
structure ProfileEnv where
  githubLinks : List Char
  resumePresent : Bool
  fetchEnv : Nat → FetchEnv
  artifactInvoke : Nat → Nat → CallResult GenResponse
  resumeFilePart : Except JsError Unit
  resumeInvoke : Nat → CallResult GenResponse
  mainFilePart : Except JsError Unit
  mainInvoke : Nat → CallResult GenResponse
  jsonParse : List Char → Option Json

/-- The mapping of a parsed deep-analysis response into the pushed record:
`{name, summary: `${project_type}: ${short_description}`, tech_stack,
complexity_rating, resume_bullets, improvement_suggestions}`. -/
def mapArtifactRaw (raw : Json) : Json :=
  .obj [("name", raw.getU "project_name"),
        ("summary", .str (jsToText (raw.getProp "project_type") ++ ": ".data ++
          jsToText (raw.getProp "short_description"))),
        ("tech_stack", raw.getU "tech_stack"),
        ("complexity_rating", raw.getU "complexity_rating"),
        ("resume_bullets", raw.getU "recommended_resume_bullets"),
        ("improvement_suggestions", raw.getU "improvement_suggestions")]

/-- One iteration of the per-artifact loop (repo index `j`): issue the call
through the retry wrapper (defaults 3 / 2000 ms); on a truthy response
text, clean, `JSON.parse` and push the mapped record; then
`await wait(2000)`.  A throw from the wrapper or from `JSON.parse` is
caught by the per-repo `catch` (nothing pushed; the trailing `wait` inside
the `try` is skipped). -/
def artifactStep (jsonParse : List Char → Option Json)
    (invoke : Nat → CallResult GenResponse) (j : Nat) : Option Json × List Ev :=
  match (generateContentWithRetry invoke 3 2000).result with
  | .ok resp =>
    if textTruthy resp.text then
      match jsonParse (cleanJson (resp.text.getD [])) with
      | some raw => (some (mapArtifactRaw raw),
          (generateContentWithRetry invoke 3 2000).trace.map (liftArtifactEv j)
            ++ [.artifactSleep 2000])
      | none => (none, (generateContentWithRetry invoke 3 2000).trace.map (liftArtifactEv j))
    else (none, (generateContentWithRetry invoke 3 2000).trace.map (liftArtifactEv j)
      ++ [.artifactSleep 2000])
  | .thrown _ => (none, (generateContentWithRetry invoke 3 2000).trace.map (liftArtifactEv j))
  | .maxRetriesExceeded =>
    (none, (generateContentWithRetry invoke 3 2000).trace.map (liftArtifactEv j))

/-- `analyzeGithubReposWithAPI(githubLinks)`: empty/blank input or no
parsed references → `[]`; otherwise fetch the first 3 referenced repos
(failed fetches dropped), and if any survive run the per-artifact loop
strictly sequentially, collecting the successful analyses in order.  No
uncaught throw escapes this function: fetch failures yield `null` and the
loop body is wrapped in `try/catch`. -/
def analyzeGithubReposWithAPI (env : ProfileEnv) : List Json × List Ev :=
  if env.githubLinks.isEmpty || (trimChars env.githubLinks).isEmpty then ([], [])
  else
    let reposToAnalyze := parseGithubInput env.githubLinks
    if reposToAnalyze.isEmpty then ([], [])
    else
      let targetRepos := reposToAnalyze.take 3
      let fetched := (List.range targetRepos.length).map
        (fun i => (fetchGithubRepoData (env.fetchEnv i), Ev.githubFetch i))
      let validRepoData := fetched.filterMap Prod.fst
      if validRepoData.isEmpty then ([], fetched.map Prod.snd)
      else
        let steps := (List.range validRepoData.length).map
          (fun j => artifactStep env.jsonParse (env.artifactInvoke j) j)
        (steps.filterMap Prod.fst, fetched.map Prod.snd ++ evJoin (steps.map Prod.snd))

/-- `analyzeResumeHighlights(resumeFile)`: `null` for a missing file.  The
file-to-base64 conversion runs **outside** the `try` (its failure rejects);
inside the `try`: wrapped call (defaults 3 / 2000 ms), `null` on falsy
text, otherwise clean + `JSON.parse`; any throw inside the `try` is caught
and `null` returned. -/
def analyzeResumeHighlights (resumePresent : Bool) (filePart : Except JsError Unit)
    (invoke : Nat → CallResult GenResponse) (jsonParse : List Char → Option Json) :
    Except JsError (Option Json) × List Ev :=
  if !resumePresent then (.ok none, [])
  else
    match filePart with
    | .error e => (.error e, [])
    | .ok _ =>
      match (generateContentWithRetry invoke 3 2000).result with
      | .ok resp =>
        if !textTruthy resp.text then
          (.ok none, (generateContentWithRetry invoke 3 2000).trace.map liftResumeEv)
        else
          match jsonParse (cleanJson (resp.text.getD [])) with
          | some j => (.ok (some j),
              (generateContentWithRetry invoke 3 2000).trace.map liftResumeEv)
          | none => (.ok none, (generateContentWithRetry invoke 3 2000).trace.map liftResumeEv)
      | .thrown _ => (.ok none, (generateContentWithRetry invoke 3 2000).trace.map liftResumeEv)
      | .maxRetriesExceeded =>
        (.ok none, (generateContentWithRetry invoke 3 2000).trace.map liftResumeEv)

/-- The top-level `required` list of `ANALYSIS_SCHEMA` (current revision;
the older revision omits `market_analysis` and requires the other
thirteen). -/
def analysisSchemaRequired : List String :=
  ["overall_scores", "market_analysis", "skill_distribution", "gap_skills",
   "competency_matrix", "jd_breakdown", "roadmap_effort", "roadmap_details",
   "roadmap_timeline", "employability_profile", "text_summaries", "assets",
   "portfolio_template", "interview_topics"]

/-- Does a parsed value carry every schema-required top-level field? -/
def hasAllRequiredFields (j : Json) : Bool :=
  analysisSchemaRequired.all (fun k => (j.getProp k).isSome)

/-- `if (githubProjects.length > 0) mainResult.github_projects = githubProjects;`
`if (resumeHighlights) mainResult.resume_highlights = resumeHighlights;`. -/
def overlayResult (githubProjects : List Json) (resumeHighlights : Option Json)
    (j : Json) : Except Unit Json :=
  match (if 0 < githubProjects.length then
      jsSetProp j "github_projects" (.arr githubProjects) else .ok j) with
  | .error e => .error e
  | .ok j1 =>
    match resumeHighlights with
    | some rh => if rh.truthy then jsSetProp j1 "resume_highlights" rh else .ok j1
    | none => .ok j1

/-- `if (resume) parts.push(await fileToGenerativePart(resume))` — the only
step of the capstone stage before the call that can reject. -/
def resumePartGate (env : ProfileEnv) : Except JsError Unit :=
  if env.resumePresent then env.mainFilePart else .ok ()

/-- The capstone stage: resume conversion (unguarded), prompt construction,
`await wait(2000)`, the wrapped call with retries 4 / initial delay
3000 ms, then: rethrow a wrapper throw; `throw new Error("No response from
AI")` on falsy text; clean + `JSON.parse` (a parse failure rejects);
overlay the side-channel results; return the result.  No partial result is
produced on any failure path. -/
def mainStage (env : ProfileEnv) (githubProjects : List Json)
    (resumeHighlights : Option Json) : Except JsError Json × List Ev :=
  match resumePartGate env with
  | .error e => (.error e, [])
  | .ok _ =>
    (match (generateContentWithRetry env.mainInvoke 4 3000).result with
     | .thrown e => .error e
     | .maxRetriesExceeded => .error maxRetriesError
     | .ok resp =>
       if !textTruthy resp.text then .error noResponseError
       else
         match env.jsonParse (cleanJson (resp.text.getD [])) with
         | none => .error syntaxError
         | some j =>
           match overlayResult githubProjects resumeHighlights j with
           | .ok j2 => .ok j2
           | .error _ => .error typeError,
     Ev.promptBuilt :: Ev.mainSleep 2000 ::
       (generateContentWithRetry env.mainInvoke 4 3000).trace.map liftMainEv)

/-- The resume side channel as `analyzeProfile` runs it. -/
def resumeChannel (env : ProfileEnv) : Except JsError (Option Json) × List Ev :=
  analyzeResumeHighlights env.resumePresent env.resumeFilePart
    env.resumeInvoke env.jsonParse

/-- The non-fatal `catch` around a side channel: a rejection becomes the
absent value. -/
def caughtOption : Except JsError (Option Json) → Option Json
  | .ok v => v
  | .error _ => none

/-- `analyzeProfile(resume, jdText, githubLinks)` (current revision):
sequential staging — (1) the GitHub batch inside a non-fatal `try` (the
batch itself never rejects, so the `catch` is dead code), (2) a 1500 ms
delay when projects were found, then the resume-highlights side channel
inside a non-fatal `try`, (3) the capstone stage.  Returns the result and
the ordered trace of suspension points. -/
def analyzeProfile (env : ProfileEnv) : Except JsError Json × List Ev :=
  let gh := analyzeGithubReposWithAPI env
  let rh := resumeChannel env
  let rhEvs := (if 0 < gh.1.length then [Ev.resumeSleep 1500] else []) ++ rh.2
  let mn := mainStage env gh.1 (caughtOption rh.1)
  (mn.1, gh.2 ++ rhEvs ++ mn.2)

/-! ## Best-effort single-call components -/

/-- `generateInterviewTopics(role)`: wrapped call, `response.text || "{}"`,
clean + `JSON.parse`, `return data.topics || []`; the whole body is inside
`try`, any throw → `[]`. -/
def generateInterviewTopics (invoke : Nat → CallResult GenResponse)
    (jsonParse : List Char → Option Json) : Except JsError Json :=
  match (generateContentWithRetry invoke 3 2000).result with
  | .ok resp =>
    match jsonParse (cleanJson (textOr resp.text "\x7b\x7d".data)) with
    | some data =>
      .ok (match data.getProp "topics" with
           | some v => if v.truthy then v else .arr []
           | none => .arr [])
    | none => .ok (.arr [])
  | .thrown _ => .ok (.arr [])
  | .maxRetriesExceeded => .ok (.arr [])

/-- `generateInterviewQuestion(role, topic)`: **no** `try/catch` — a
wrapper throw or a `JSON.parse` throw propagates to the caller. -/
def generateInterviewQuestion (invoke : Nat → CallResult GenResponse)
    (jsonParse : List Char → Option Json) : Except JsError Json :=
  match (generateContentWithRetry invoke 3 2000).result with
  | .ok resp =>
    match jsonParse (cleanJson (textOr resp.text "\x7b\x7d".data)) with
    | some j => .ok j
    | none => .error syntaxError
  | .thrown e => .error e
  | .maxRetriesExceeded => .error maxRetriesError

/-- `generateSpeech(text)`: wrapped TTS call inside `try`; returns the
inline audio payload via `audioData || null`; any throw → `null`. -/
def generateSpeech (invoke : Nat → CallResult GenResponse) :
    Except JsError (Option (List Char)) :=
  match (generateContentWithRetry invoke 3 2000).result with
  | .ok resp =>
    .ok (match resp.audioData with
         | some d => if d.isEmpty then none else some d
         | none => none)
  | .thrown _ => .ok none
  | .maxRetriesExceeded => .ok none

/-- `transcribeAudio(audioBase64, mimeType)`: wrapped call inside `try`;
returns `response.text || ""`; any throw → `""`. -/
def transcribeAudio (invoke : Nat → CallResult GenResponse) :
    Except JsError (List Char) :=
  match (generateContentWithRetry invoke 3 2000).result with
  | .ok resp => .ok (textOr resp.text [])
  | .thrown _ => .ok []
  | .maxRetriesExceeded => .ok []

def portfolioErrorFragment : List Char := "<!-- Error generating portfolio -->".data

/-- `generatePortfolioHtml(analysisResult, preferences)`: the candidate
profile mapping is a pure projection of a well-typed `AnalysisResult`; the
model call (no schema) and `cleanHtml(response.text || "")` run inside a
`try`; any throw → the fixed minimal HTML error fragment. -/
def generatePortfolioHtml (invoke : Nat → CallResult GenResponse) :
    Except JsError (List Char) :=
  match (generateContentWithRetry invoke 3 2000).result with
  | .ok resp => .ok (cleanHtml (textOr resp.text []))
  | .thrown _ => .ok portfolioErrorFragment
  | .maxRetriesExceeded => .ok portfolioErrorFragment

/-- `evaluateInterviewAnswer(question, transcript)`: **no** `try/catch` —
failures propagate, like question generation. -/
def evaluateInterviewAnswer (invoke : Nat → CallResult GenResponse)
    (jsonParse : List Char → Option Json) : Except JsError Json :=
  match (generateContentWithRetry invoke 3 2000).result with
  | .ok resp =>
    match jsonParse (cleanJson (textOr resp.text "\x7b\x7d".data)) with
    | some j => .ok j
    | none => .error syntaxError
  | .thrown e => .error e
  | .maxRetriesExceeded => .error maxRetriesError

/-! ## Concrete environments for counterexamples and witnesses -/

/-- A partial model of `JSON.parse`, defined at the strings the concrete
environments produce; its value there is forced by ECMA-404
(`"\x7b\x7d"` parses to the empty object). -/
def jsonParseCex (s : List Char) : Option Json :=
  if s = "\x7b\x7d".data then some (.obj []) else none

/-- Environment in which the capstone response is the empty JSON object
`"\x7b\x7d"` — syntactically valid, but missing every schema-required
field. -/
def cexEnvMissingFields : ProfileEnv :=
  { githubLinks := []
    resumePresent := true
    fetchEnv := fun _ => ⟨none, none, none, fun _ => none⟩
    artifactInvoke := fun _ _ => .thrown nonQuotaErr500
    resumeFilePart := .ok ()
    resumeInvoke := fun _ => .ok ⟨none, none⟩
    mainFilePart := .ok ()
    mainInvoke := fun _ => .ok ⟨some "\x7b\x7d".data, none⟩
    jsonParse := jsonParseCex }

/-- An invoker whose every attempt throws the non-quota 500 error. -/
def invokeThrow500 : Nat → CallResult GenResponse :=
  fun _ => .thrown nonQuotaErr500

/-- Environment in which the capstone call throws a non-quota error on its
first attempt. -/
def cexEnvMainThrows : ProfileEnv :=
  { githubLinks := []
    resumePresent := true
    fetchEnv := fun _ => ⟨none, none, none, fun _ => none⟩
    artifactInvoke := fun _ _ => .thrown nonQuotaErr500
    resumeFilePart := .ok ()
    resumeInvoke := fun _ => .ok ⟨none, none⟩
    mainFilePart := .ok ()
    mainInvoke := fun _ => .thrown nonQuotaErr500
    jsonParse := jsonParseCex }

end CareerCompass

namespace CareerCompass

theorem qbt_filter_attempt (D : Nat) :
    ∀ (N i : Nat), (quotaBackoffTrace D i N).filter isAttemptEv
      = (List.range N).map (fun k => REv.attempt (i + k)) := by
  intro N
  induction N with
  | zero => intro i; rfl
  | succ n ih =>
    intro i
    rw [List.range_succ_eq_map]
    simp only [quotaBackoffTrace, List.filter, isAttemptEv, List.map_cons, List.map_map]
    rw [ih (i + 1)]
    congr 1
    refine List.map_congr_left (fun k _ => ?_)
    show REv.attempt (i + 1 + k) = REv.attempt (i + (k + 1))
    congr 1
    omega

theorem qbt_filter_sleep (D : Nat) :
    ∀ (N i : Nat), (quotaBackoffTrace D i N).filter isSleepEv
      = (List.range N).map (fun k => REv.sleep (D * 2 ^ (i + k))) := by
  intro N
  induction N with
  | zero => intro i; rfl
  | succ n ih =>
    intro i
    rw [List.range_succ_eq_map]
    simp only [quotaBackoffTrace, List.filter, isSleepEv, List.map_cons, List.map_map]
    rw [ih (i + 1)]
    congr 1
    refine List.map_congr_left (fun k _ => ?_)
    show REv.sleep (D * 2 ^ (i + 1 + k)) = REv.sleep (D * 2 ^ (i + (k + 1)))
    rw [show i + 1 + k = i + (k + 1) from by omega]

theorem retryAux_quota_then_ok {α : Type} (invoke : Nat → CallResult α) (D : Nat) :
    ∀ (N i rem : Nat) (v : α),
      (∀ k, k < N → ∃ e, invoke (i + k) = .thrown e ∧ isQuotaError e = true) →
      invoke (i + N) = .ok v →
      N < rem →
      retryAux invoke D i rem = ⟨.ok v, quotaBackoffTrace D i N ++ [.attempt (i + N)]⟩ := by
  intro N
  induction N with
  | zero =>
    intro i rem v _ hok hlt
    obtain ⟨rem', rfl⟩ : ∃ rem', rem = rem' + 1 := ⟨rem - 1, by omega⟩
    rw [Nat.add_zero] at hok
    simp [retryAux, hok, quotaBackoffTrace]
  | succ n ih =>
    intro i rem v hq hok hlt
    obtain ⟨rem', rfl⟩ : ∃ rem', rem = rem' + 1 := ⟨rem - 1, by omega⟩
    obtain ⟨e, he, heq⟩ := hq 0 (Nat.succ_pos n)
    rw [Nat.add_zero] at he
    have hrem' : 0 < rem' := by omega
    have hrec := ih (i + 1) rem' v
      (fun k hk => by
        obtain ⟨e', he', hq'⟩ := hq (k + 1) (by omega)
        exact ⟨e', by rw [← he']; congr 1; omega, hq'⟩)
      (by rw [← hok]; congr 1; omega)
      (by omega)
    rw [show i + 1 + n = i + (n + 1) from by omega] at hrec
    have hg : (isQuotaError e && decide (0 < rem')) = true := by simp [heq, hrem']
    simp only [retryAux, he, hg, if_true, hrec, quotaBackoffTrace, List.cons_append]

theorem retryNonQuotaFirst {α : Type} (invoke : Nat → CallResult α) (R D : Nat)
    (e : JsError) (he : invoke 0 = .thrown e) (hq : isQuotaError e = false)
    (hR : 1 ≤ R) :
    generateContentWithRetry invoke R D = ⟨.thrown e, [.attempt 0]⟩ := by
  obtain ⟨R', rfl⟩ : ∃ R', R = R' + 1 := ⟨R - 1, by omega⟩
  simp [generateContentWithRetry, retryAux, he, hq]

/-- **C3.** Behaviour of the retry wrapper `generateContentWithRetry` with
retry count `R` and initial delay `D`.  (1) If the underlying invoker fails
with a quota/rate-limit error on attempts `0 … N-1` and succeeds on attempt
`N`, with `N < R`, then the wrapper returns the successful value, its trace
is attempt 0, sleep `D·2⁰`, attempt 1, sleep `D·2¹`, …, attempt `N` — so it
calls the underlying invoker exactly `N+1` times, performs no sleep before
the first attempt (the first trace event is attempt 0), and sleeps `D·2ⁱ`
after the `i`-th failed attempt.  (2) If the invoker throws a non-quota
error on the first attempt, the wrapper makes exactly that one call and
rethrows that error unchanged. -/
theorem generateContentWithRetry_backoff {α : Type} (invoke : Nat → CallResult α)
    (R D N : Nat) (v : α) :
    ((∀ k, k < N → ∃ e, invoke k = .thrown e ∧ isQuotaError e = true) →
      invoke N = .ok v → N < R →
      (generateContentWithRetry invoke R D).result = .ok v ∧
      (generateContentWithRetry invoke R D).trace
        = quotaBackoffTrace D 0 N ++ [.attempt N] ∧
      ((generateContentWithRetry invoke R D).trace.filter isAttemptEv).length = N + 1 ∧
      ((generateContentWithRetry invoke R D).trace.filter isSleepEv)
        = (List.range N).map (fun k => REv.sleep (D * 2 ^ k)) ∧
      (generateContentWithRetry invoke R D).trace.head? = some (.attempt 0)) ∧
    (∀ e, invoke 0 = .thrown e → isQuotaError e = false → 1 ≤ R →
      generateContentWithRetry invoke R D = ⟨.thrown e, [.attempt 0]⟩) := by
  constructor
  · intro hq hok hlt
    have h := retryAux_quota_then_ok invoke D N 0 R v
      (fun k hk => by simpa using hq k hk) (by simpa using hok) hlt
    rw [Nat.zero_add] at h
    rw [generateContentWithRetry, h]
    refine ⟨rfl, rfl, ?_, ?_, ?_⟩
    · rw [List.filter_append, qbt_filter_attempt]
      simp [isAttemptEv]
    · rw [List.filter_append, qbt_filter_sleep]
      simp [isSleepEv]
    · cases N with
      | zero => rfl
      | succ n => rfl
  · intro e he heq hR
    exact retryNonQuotaFirst invoke R D e he heq hR

/-- Witness for C3: with a mock invoker failing with a 429 error twice then
succeeding (N = 2, R = 3, D = 2000), the wrapper returns the value with
trace attempt 0, sleep 2000, attempt 1, sleep 4000, attempt 2; with an
invoker throwing a non-quota (500) error, it makes one call and rethrows. -/
theorem generateContentWithRetry_backoff_witness :
    (generateContentWithRetry invokeQuotaTwiceThenOk 3 2000).result = .ok 7 ∧
    (generateContentWithRetry invokeQuotaTwiceThenOk 3 2000).trace
      = [REv.attempt 0, REv.sleep 2000, REv.attempt 1, REv.sleep 4000, REv.attempt 2] ∧
    generateContentWithRetry invokeAlwaysNonQuota 3 2000
      = ⟨.thrown nonQuotaErr500, [.attempt 0]⟩ := by
  have h := generateContentWithRetry_backoff invokeQuotaTwiceThenOk 3 2000 2 7
  obtain ⟨h1, h2, -⟩ := h.1
    (fun k hk => ⟨quotaErr429, by
      match k, hk with
      | 0, _ => exact ⟨by decide, by decide⟩
      | 1, _ => exact ⟨by decide, by decide⟩⟩)
    (by decide) (by decide)
  have h' := (generateContentWithRetry_backoff invokeAlwaysNonQuota 3 2000 0 7).2
    nonQuotaErr500 (by decide) (by decide) (by decide)
  refine ⟨h1, ?_, h'⟩
  rw [h2]
  decide

theorem retryAux_provenance {α : Type} (invoke : Nat → CallResult α) (D : Nat) :
    ∀ (rem i : Nat),
      (∃ k v, k < rem + 1 ∧ invoke (i + k) = .ok v ∧
        (retryAux invoke D i (rem + 1)).result = .ok v) ∨
      (∃ k e, k < rem + 1 ∧ invoke (i + k) = .thrown e ∧
        (retryAux invoke D i (rem + 1)).result = .thrown e) := by
  intro rem
  induction rem with
  | zero =>
    intro i
    match hc : invoke i with
    | .ok v => exact .inl ⟨0, v, by omega, by simpa using hc, by simp [retryAux, hc]⟩
    | .thrown e =>
      refine .inr ⟨0, e, by omega, by simpa using hc, ?_⟩
      simp [retryAux, hc]
  | succ n ih =>
    intro i
    match hc : invoke i with
    | .ok v => exact .inl ⟨0, v, by omega, by simpa using hc, by simp [retryAux, hc]⟩
    | .thrown e =>
      by_cases hq : isQuotaError e = true
      · rcases ih (i + 1) with ⟨k, v, hk, hv, hr⟩ | ⟨k, e', hk, he', hr⟩
        · refine .inl ⟨k + 1, v, by omega, by rw [← hv]; congr 1; omega, ?_⟩
          simpa [retryAux, hc, hq] using hr
        · refine .inr ⟨k + 1, e', by omega, by rw [← he']; congr 1; omega, ?_⟩
          simpa [retryAux, hc, hq] using hr
      · refine .inr ⟨0, e, by omega, by simpa using hc, ?_⟩
        simp only [Bool.not_eq_true] at hq
        simp [retryAux, hc, hq]

/-- **C10.** For every retry count `R ≥ 1`, the retry wrapper either returns
a value produced by some underlying invoker call or rethrows an error thrown
by some underlying invoker call; in particular the synthetic
`Error("Max retries exceeded for Gemini API")` on its final line is never
produced, so the wrapper never replaces an underlying error with a
fabricated one. -/
theorem generateContentWithRetry_no_fabricated_error {α : Type}
    (invoke : Nat → CallResult α) (R D : Nat) (hR : 1 ≤ R) :
    ((∃ k v, k < R ∧ invoke k = .ok v ∧
        (generateContentWithRetry invoke R D).result = .ok v) ∨
     (∃ k e, k < R ∧ invoke k = .thrown e ∧
        (generateContentWithRetry invoke R D).result = .thrown e)) ∧
    (generateContentWithRetry invoke R D).result ≠ .maxRetriesExceeded := by
  obtain ⟨R', rfl⟩ : ∃ R', R = R' + 1 := ⟨R - 1, by omega⟩
  have h := retryAux_provenance invoke D R' 0
  constructor
  · rcases h with ⟨k, v, hk, hv, hr⟩ | ⟨k, e, hk, he, hr⟩
    · exact .inl ⟨k, v, hk, by simpa using hv, hr⟩
    · exact .inr ⟨k, e, hk, by simpa using he, hr⟩
  · rcases h with ⟨k, v, hk, hv, hr⟩ | ⟨k, e, hk, he, hr⟩ <;>
      · rw [generateContentWithRetry, hr]
        intro hcon
        exact absurd hcon (by simp)

/-- Witness for C10 at a concrete invoker (always throws a 500 error) with
`R = 3`. -/
theorem generateContentWithRetry_no_fabricated_error_witness :
    ((∃ k v, k < 3 ∧ invokeAlwaysNonQuota k = .ok v ∧
        (generateContentWithRetry invokeAlwaysNonQuota 3 2000).result = .ok v) ∨
     (∃ k e, k < 3 ∧ invokeAlwaysNonQuota k = .thrown e ∧
        (generateContentWithRetry invokeAlwaysNonQuota 3 2000).result = .thrown e)) ∧
    (generateContentWithRetry invokeAlwaysNonQuota 3 2000).result ≠ .maxRetriesExceeded :=
  generateContentWithRetry_no_fabricated_error invokeAlwaysNonQuota 3 2000 (by decide)

theorem takeWhile_all (p : Char → Bool) :
    ∀ (s : List Char), ∀ x ∈ s.takeWhile p, p x = true := by
  intro s
  induction s with
  | nil => intro x hx; simp [List.takeWhile] at hx
  | cons c t ih =>
    intro x hx
    rw [List.takeWhile_cons] at hx
    by_cases hc : p c = true
    · rw [if_pos hc] at hx
      rcases List.mem_cons.mp hx with rfl | hx
      · exact hc
      · exact ih x hx
    · rw [if_neg hc] at hx
      simp at hx

theorem matchOwnerRepoAt_chars {s o r : List Char}
    (h : matchOwnerRepoAt s = some (o, r)) :
    (∀ x ∈ o, ownerChar x = true) ∧ ∀ x ∈ r, repoChar x = true := by
  unfold matchOwnerRepoAt at h
  split at h
  · exact absurd h (by simp)
  · split at h
    next rest heq =>
      split at h
      · exact absurd h (by simp)
      · obtain ⟨rfl, rfl⟩ := Prod.mk.injEq .. ▸ Option.some.inj h
        exact ⟨takeWhile_all ownerChar s, takeWhile_all repoChar rest⟩
    next => exact absurd h (by simp)

theorem firstSome_eq_some {α : Type} {x y : Option α} {v : α}
    (h : firstSome x y = some v) : x = some v ∨ (x = none ∧ y = some v) := by
  cases x with
  | none => exact .inr ⟨rfl, h⟩
  | some w => exact .inl (by simpa [firstSome] using h)

theorem matchRepoAux_chars : ∀ (s : List Char) (b : Bool) (o r : List Char),
    matchRepoAux s b = some (o, r) →
    (∀ x ∈ o, ownerChar x = true) ∧ ∀ x ∈ r, repoChar x = true := by
  intro s
  induction s with
  | nil => intro b o r h; simp [matchRepoAux] at h
  | cons c t ih =>
    intro b o r h
    rw [matchRepoAux] at h
    rcases firstSome_eq_some h with h1 | ⟨-, h2⟩
    · by_cases hg : isPfx githubHostSlash (c :: t) = true
      · rw [if_pos hg] at h1
        exact matchOwnerRepoAt_chars h1
      · rw [if_neg hg] at h1
        exact absurd h1 (by simp)
    · rcases firstSome_eq_some h2 with h3 | ⟨-, h4⟩
      · cases b with
        | false => simp at h3
        | true => exact matchOwnerRepoAt_chars (by simpa using h3)
      · exact ih false o r h4

theorem matchedRefs_mem {input : List Char} {r : RepoRef} (h : r ∈ matchedRefs input) :
    r.url = canonicalUrl r.owner r.repo ∧
    (∀ x ∈ r.owner, ownerChar x = true) ∧ ∀ x ∈ r.repo, repoChar x = true := by
  obtain ⟨link, -, hsome⟩ := List.mem_filterMap.mp h
  obtain ⟨p, hp, rfl⟩ := Option.map_eq_some'.mp hsome
  exact ⟨rfl, matchRepoAux_chars _ true p.1 p.2 hp⟩

theorem ownerChar_ne_slash {x : Char} (h : ownerChar x = true) : x ≠ '/' := by
  intro hx
  rw [hx] at h
  exact absurd h (by decide)

theorem append_slash_inj : ∀ (a c b d : List Char),
    (∀ x ∈ a, x ≠ '/') → (∀ x ∈ c, x ≠ '/') →
    a ++ '/' :: b = c ++ '/' :: d → a = c ∧ b = d := by
  intro a
  induction a with
  | nil =>
    intro c b d _ hc h
    cases c with
    | nil => simpa using h
    | cons x cs =>
      simp only [List.nil_append, List.cons_append, List.cons.injEq] at h
      exact absurd h.1.symm (hc x (by simp))
  | cons y as ih =>
    intro c b d ha hc h
    cases c with
    | nil =>
      simp only [List.cons_append, List.nil_append, List.cons.injEq] at h
      exact absurd h.1 (ha y (by simp))
    | cons x cs =>
      simp only [List.cons_append, List.cons.injEq] at h
      obtain ⟨rfl, h2⟩ := h
      obtain ⟨rfl, rfl⟩ := ih cs b d (fun z hz => ha z (List.mem_cons_of_mem y hz))
        (fun z hz => hc z (List.mem_cons_of_mem y hz)) h2
      exact ⟨rfl, rfl⟩

theorem canonicalUrl_inj {o r o' r' : List Char}
    (ho : ∀ x ∈ o, ownerChar x = true) (ho' : ∀ x ∈ o', ownerChar x = true)
    (h : canonicalUrl o r = canonicalUrl o' r') : o = o' ∧ r = r' := by
  unfold canonicalUrl at h
  rw [List.append_assoc, List.append_assoc] at h
  have h2 := List.append_cancel_left h
  exact append_slash_inj o o' r r'
    (fun x hx => ownerChar_ne_slash (ho x hx))
    (fun x hx => ownerChar_ne_slash (ho' x hx)) h2

theorem mapSet_keys (m : List (List Char × RepoRef)) (k : List Char) (v : RepoRef) :
    (mapSet m k v).map Prod.fst = m.map Prod.fst ∨
    ((mapSet m k v).map Prod.fst = m.map Prod.fst ++ [k] ∧ k ∉ m.map Prod.fst) := by
  unfold mapSet
  by_cases h : m.any (fun p => p.1 == k) = true
  · left
    rw [if_pos h, List.map_map]
    refine List.map_congr_left (fun p _ => ?_)
    show (if p.1 == k then (k, v) else p).1 = p.1
    by_cases hp : (p.1 == k) = true
    · rw [if_pos hp]
      exact (eq_of_beq hp).symm
    · rw [if_neg hp]
  · right
    rw [if_neg h, List.map_append]
    refine ⟨rfl, fun hk => ?_⟩
    obtain ⟨p, hp, hpk⟩ := List.mem_map.mp hk
    rw [List.any_eq_true] at h
    exact h ⟨p, hp, by simp [hpk]⟩

theorem mapSet_mem {m : List (List Char × RepoRef)} {k : List Char} {v : RepoRef}
    {p : List Char × RepoRef} (h : p ∈ mapSet m k v) : p ∈ m ∨ p = (k, v) := by
  unfold mapSet at h
  by_cases hc : m.any (fun q => q.1 == k) = true
  · rw [if_pos hc] at h
    obtain ⟨q, hq, hfq⟩ := List.mem_map.mp h
    by_cases hqk : (q.1 == k) = true
    · right
      rw [← hfq, if_pos hqk]
    · left
      rw [← hfq, if_neg hqk]
      exact hq
  · rw [if_neg hc] at h
    rcases List.mem_append.mp h with h | h
    · exact .inl h
    · exact .inr (by simpa using h)

theorem insertAll_aux_nodup : ∀ (rs : List RepoRef) (m : List (List Char × RepoRef)),
    (m.map Prod.fst).Nodup →
    ((rs.foldl (fun m r => mapSet m r.url r) m).map Prod.fst).Nodup := by
  intro rs
  induction rs with
  | nil => intro m h; exact h
  | cons r rs ih =>
    intro m h
    rw [List.foldl_cons]
    apply ih
    rcases mapSet_keys m r.url r with hk | ⟨hk, hnk⟩
    · rw [hk]; exact h
    · rw [hk]
      simp [List.nodup_append, h, hnk]

theorem insertAll_aux_mem : ∀ (rs : List RepoRef) (m : List (List Char × RepoRef))
    (p : List Char × RepoRef),
    p ∈ rs.foldl (fun m r => mapSet m r.url r) m →
    p ∈ m ∨ ∃ r, r ∈ rs ∧ p = (r.url, r) := by
  intro rs
  induction rs with
  | nil => intro m p h; exact .inl h
  | cons r rs ih =>
    intro m p h
    rw [List.foldl_cons] at h
    rcases ih (mapSet m r.url r) p h with h | ⟨q, hq, rfl⟩
    · rcases mapSet_mem h with h | rfl
      · exact .inl h
      · exact .inr ⟨r, List.mem_cons_self r rs, rfl⟩
    · exact .inr ⟨q, List.mem_cons_of_mem r hq, rfl⟩

/-- **C7.** The reference parser `parseGithubInput`: (1) each unique
`(owner, repo)` pair appears at most once in the output; (2) every output
element's canonical url is `https://github.com/` followed by its owner and
repo; (3) the malformed tokens `"not a url"` and `"///"` yield no output
element; (4) feeding the same link twice — once bare and once with a
trailing slash — yields exactly one output element. -/
theorem parseGithubInput_spec :
    (∀ input : List Char,
      (parseGithubInput input).Pairwise (fun a b => a.owner ≠ b.owner ∨ a.repo ≠ b.repo) ∧
      ∀ r ∈ parseGithubInput input,
        r.url = "https://github.com/".data ++ r.owner ++ '/' :: r.repo) ∧
    parseGithubInput "not a url".data = [] ∧
    parseGithubInput "///".data = [] ∧
    parseGithubInput "https://github.com/foo/bar, github.com/foo/bar/".data
      = [⟨"foo".data, "bar".data, "https://github.com/foo/bar".data⟩] := by
  refine ⟨?_, by decide, by decide, by decide⟩
  intro input
  have hprov : ∀ p ∈ insertAll (matchedRefs input), p.2 ∈ matchedRefs input := by
    intro p hp
    rcases insertAll_aux_mem (matchedRefs input) [] p hp with h | ⟨q, hq, rfl⟩
    · simp at h
    · exact hq
  have hkv : ∀ p ∈ insertAll (matchedRefs input), p.1 = p.2.url := by
    intro p hp
    rcases insertAll_aux_mem (matchedRefs input) [] p hp with h | ⟨q, hq, rfl⟩
    · simp at h
    · rfl
  constructor
  · have hkeys : ((insertAll (matchedRefs input)).map Prod.fst).Nodup :=
      insertAll_aux_nodup (matchedRefs input) [] (by simp)
    have hurls : ((insertAll (matchedRefs input)).map (fun p => p.2.url)).Nodup := by
      rw [← List.map_congr_left hkv]
      exact hkeys
    have hpw : (insertAll (matchedRefs input)).Pairwise (fun p q => p.2.url ≠ q.2.url) :=
      List.pairwise_map.mp hurls
    rw [parseGithubInput, List.pairwise_map]
    refine hpw.imp_of_mem (fun {p q} hp hq hne => ?_)
    by_contra hcon
    rw [not_or, not_ne_iff, not_ne_iff] at hcon
    obtain ⟨hu1, hc1, -⟩ := matchedRefs_mem (hprov p hp)
    obtain ⟨hu2, hc2, -⟩ := matchedRefs_mem (hprov q hq)
    exact hne (by rw [hu1, hu2, hcon.1, hcon.2])
  · intro r hr
    obtain ⟨p, hp, rfl⟩ := List.mem_map.mp hr
    exact (matchedRefs_mem (hprov p hp)).1

/-- Witness for C7 at the duplicate-link input. -/
theorem parseGithubInput_spec_witness :
    (parseGithubInput "https://github.com/foo/bar, github.com/foo/bar/".data).Pairwise
      (fun a b => a.owner ≠ b.owner ∨ a.repo ≠ b.repo) ∧
    (⟨"foo".data, "bar".data, "https://github.com/foo/bar".data⟩ : RepoRef).url
      = "https://github.com/".data ++ "foo".data ++ '/' :: "bar".data := by
  have h := parseGithubInput_spec.1 "https://github.com/foo/bar, github.com/foo/bar/".data
  exact ⟨h.1, h.2 _ (by decide)⟩

/-- **C5.** Per-file truncation: a fetched content of length `L > 8000` is
stored as its first 8000 characters followed by the fixed truncation marker
(so with length exactly `8000 + marker.length`); a content of length
`L ≤ 8000` is stored unchanged. -/
theorem truncateContent_spec (content : List Char) :
    (8000 < content.length →
      truncateContent content = content.take 8000 ++ truncationMarker ∧
      (truncateContent content).length = 8000 + truncationMarker.length) ∧
    (content.length ≤ 8000 → truncateContent content = content) := by
  constructor
  · intro h
    rw [truncateContent, if_pos h]
    refine ⟨rfl, ?_⟩
    rw [List.length_append, List.length_take]
    omega
  · intro h
    rw [truncateContent, if_neg (by omega)]

/-- Witness for C5 at a content of length 8001 and one of length 3. -/
theorem truncateContent_spec_witness :
    (truncateContent longContent = longContent.take 8000 ++ truncationMarker ∧
      (truncateContent longContent).length = 8000 + truncationMarker.length) ∧
    truncateContent "abc".data = "abc".data :=
  ⟨(truncateContent_spec longContent).1
      (by rw [longContent, List.length_replicate]; omega),
   (truncateContent_spec "abc".data).2 (by decide)⟩

/-- **C8, counterexample.** A successful languages fetch whose mapping is
in ascending byte order: the summary lists the first five entries `A`–`E`
(1% each) and omits `F`, the language with the greatest byte share (95%) —
so the summary does not list the top 5 languages by share. -/
theorem languageSummary_not_top5_counterexample :
    fetchGithubRepoData cexFetchEnvLangs
      = some ⟨"demo".data, "https://github.com/u/demo".data,
          "A 1%, B 1%, C 1%, D 1%, E 1%".data, []⟩ ∧
    hasSubstr "F".data "A 1%, B 1%, C 1%, D 1%, E 1%".data = false ∧
    (∀ p ∈ langsAscending, p.2 ≤ 95) ∧
    ("F".data, 95) ∈ langsAscending := by
  refine ⟨by decide, by decide, by decide, by decide⟩

/-- **C8, amended.** For a successful languages fetch the summary lists the
*first five entries of the mapping in its given order*, each rendered as
`name NN%` with `NN` the share of total bytes rounded to the nearest
percent; the code never sorts, so these are the top 5 by share only when
the mapping itself is sorted by nonincreasing byte count (as the GitHub
languages endpoint returns it) — which the second conjunct states: under
that ordering every dropped entry's byte count is at most every kept
entry's. -/
theorem languageSummary_spec (langs : List (List Char × Nat)) :
    languageSummary langs
      = joinCommaSep ((langs.take 5).map (langEntryText ((langs.map Prod.snd).sum))) ∧
    (langs.Pairwise (fun p q => q.2 ≤ p.2) →
      ∀ p ∈ langs.drop 5, ∀ q ∈ langs.take 5, p.2 ≤ q.2) := by
  constructor
  · rw [languageSummary, List.map_take]
  · intro hs p hp q hq
    have hs' : (langs.take 5 ++ langs.drop 5).Pairwise (fun p q => q.2 ≤ p.2) := by
      rw [List.take_append_drop]
      exact hs
    exact (List.pairwise_append.mp hs').2.2 q hq p hp

/-- Witness for C8 (amended) at a descending two-language mapping. -/
theorem languageSummary_spec_witness :
    languageSummary langsDesc
      = joinCommaSep ((langsDesc.take 5).map (langEntryText ((langsDesc.map Prod.snd).sum))) ∧
    ∀ p ∈ langsDesc.drop 5, ∀ q ∈ langsDesc.take 5, p.2 ≤ q.2 :=
  ⟨(languageSummary_spec langsDesc).1, (languageSummary_spec langsDesc).2 (by decide)⟩

theorem interesting_score_zero {nm : List Char} (h : nm ∈ interestingFiles) :
    fileScore nm = 0 ↔ nm = "README.md".data := by
  simp only [interestingFiles, List.mem_cons, List.not_mem_nil, or_false] at h
  rcases h with rfl | rfl | rfl | rfl | rfl | rfl | rfl | rfl | rfl | rfl | rfl | rfl <;>
    decide

theorem filter_eq_singleton_of_nodup_names {r : DirEntry} (p : DirEntry → Bool) :
    ∀ {l : List DirEntry}, (l.map DirEntry.name).Nodup → r ∈ l → p r = true →
    (∀ e ∈ l, p e = true → e.name = r.name) →
    l.filter p = [r] := by
  intro l
  induction l with
  | nil => intro _ hr; simp at hr
  | cons a t ih =>
    intro hnd hr hpr hname
    rw [List.map_cons, List.nodup_cons] at hnd
    rcases List.mem_cons.mp hr with rfl | hrt
    · have hnil : t.filter p = [] := by
        rw [List.filter_eq_nil_iff]
        intro e het hpe
        have hne := hname e (List.mem_cons_of_mem r het) hpe
        exact absurd (hne ▸ List.mem_map_of_mem DirEntry.name het) hnd.1
      rw [List.filter_cons_of_pos hpr, hnil]
    · have hpa : p a = false := by
        by_cases hpa' : p a = true
        · have hna := hname a (List.mem_cons_self a t) hpa'
          exact absurd (hna ▸ List.mem_map_of_mem DirEntry.name hrt) hnd.1
        · simpa using hpa'
      rw [List.filter_cons_of_neg (by simp [hpa])]
      exact ih hnd.2 hrt hpr (fun e het hpe => hname e (List.mem_cons_of_mem a het) hpe)

/-- **C6, counterexample.** A repository whose artifact fetch succeeds, with
`README.md` among the matched directory entries, whose files bundle's first
(and only) block is `package.json`'s — because the README's own content
fetch failed and failed fetches are skipped.  (The first conjunct also
exhibits the bundle, which has 1 ≤ 4 blocks.) -/
theorem fetchGithubRepoData_readme_not_first :
    fetchGithubRepoData cexFetchEnvReadme
      = some ⟨"demo".data, "https://github.com/u/demo".data, [],
          [("package.json".data, "x".data)]⟩ ∧
    (⟨"README.md".data, "file".data, "README.md".data⟩ : DirEntry)
      ∈ ((cexFetchEnvReadme.contents.getD []).filter isInterestingFile) ∧
    (("package.json".data : List Char), ("x".data : List Char)).1 ≠ "README.md".data := by
  refine ⟨by decide, by decide, by decide⟩

/-- **C6, amended.** For every repository whose artifact fetch succeeds the
files bundle contains at most 4 `FILE:` blocks; and whenever the root
listing's entry names are distinct (as in a real directory listing), if a
README file is among the matched entries *and its content fetch succeeds*,
then the README's block is the first block of the bundle. -/
theorem filesBundle_spec (env : FetchEnv) (meta : RepoMeta) (contents : List DirEntry)
    (hm : env.meta = some meta) (hc : env.contents = some contents)
    (hnodup : (contents.map DirEntry.name).Nodup) :
    ∃ d, fetchGithubRepoData env = some d ∧
      d.files_bundle_blocks.length ≤ 4 ∧
      ∀ r ∈ contents.filter isInterestingFile, r.name = "README.md".data →
        ∀ c, env.fileContent r.path = some c →
          d.files_bundle_blocks.head? = some (r.path, truncateContent c) := by
  refine ⟨⟨meta.name, meta.html_url,
      (match env.langs with | none => [] | some langs => languageSummary langs),
      bundleBlocks env.fileContent
        ((sortByScore (contents.filter isInterestingFile)).take 4)⟩, ?_, ?_, ?_⟩
  · rw [fetchGithubRepoData, hm, hc]
  · calc (bundleBlocks env.fileContent
          ((sortByScore (contents.filter isInterestingFile)).take 4)).length
        ≤ ((sortByScore (contents.filter isInterestingFile)).take 4).length :=
          List.length_filterMap_le _ _
      _ ≤ 4 := by rw [List.length_take]; omega
  · intro r hr hrn c hcc
    have hrint : r.name ∈ interestingFiles := by
      have h2 := (List.mem_filter.mp hr).2
      simp only [isInterestingFile, Bool.and_eq_true] at h2
      simpa using h2.2
    have hfnd : ((contents.filter isInterestingFile).map DirEntry.name).Nodup :=
      hnodup.sublist (List.Sublist.map DirEntry.name (List.filter_sublist contents))
    have hzero : (contents.filter isInterestingFile).filter
        (fun f => fileScore f.name == 0) = [r] := by
      apply filter_eq_singleton_of_nodup_names _ hfnd hr
      · simp [(interesting_score_zero hrint).mpr hrn]
      · intro e he hpe
        have heint : e.name ∈ interestingFiles := by
          have h2 := (List.mem_filter.mp he).2
          simp only [isInterestingFile, Bool.and_eq_true] at h2
          simpa using h2.2
        rw [(interesting_score_zero heint).mp (by simpa using hpe), hrn]
    show (bundleBlocks env.fileContent
        ((sortByScore (contents.filter isInterestingFile)).take 4)).head?
      = some (r.path, truncateContent c)
    rw [sortByScore, hzero]
    simp only [List.cons_append, List.nil_append]
    rw [show ∀ (x : DirEntry) (l : List DirEntry), (x :: l).take 4 = x :: l.take 3
        from fun x l => rfl]
    simp only [bundleBlocks, List.filterMap_cons, hcc, Option.map_some']
    rfl

/-- Witness for C6 (amended): a listing containing a README whose fetch
succeeds — the README block comes first even though `package.json` is also
matched. -/
theorem filesBundle_spec_witness :
    ∃ d, fetchGithubRepoData okFetchEnvReadme = some d ∧
      d.files_bundle_blocks.length ≤ 4 ∧
      d.files_bundle_blocks.head?
        = some ("README.md".data, truncateContent ("README.md".data ++ "!".data)) := by
  obtain ⟨d, hd, hlen, hhead⟩ := filesBundle_spec okFetchEnvReadme demoMeta
    ((okFetchEnvReadme.contents).getD []) rfl rfl (by decide)
  exact ⟨d, hd, hlen,
    hhead ⟨"README.md".data, "file".data, "README.md".data⟩ (by decide) rfl
      ("README.md".data ++ "!".data) rfl⟩

theorem evJoin_mem {L : List (List Ev)} {e : Ev} (h : e ∈ evJoin L) :
    ∃ l ∈ L, e ∈ l := by
  induction L with
  | nil => simp [evJoin] at h
  | cons x t ih =>
    rw [evJoin] at h
    rcases List.mem_append.mp h with h | h
    · exact ⟨x, List.mem_cons_self x t, h⟩
    · obtain ⟨l, hl, hel⟩ := ih h
      exact ⟨l, List.mem_cons_of_mem x hl, hel⟩

theorem liftArtifactEv_stage (j : Nat) (r : REv) :
    isGithubStageEv (liftArtifactEv j r) = true := by
  cases r <;> rfl

theorem liftResumeEv_stage (r : REv) : isResumeStageEv (liftResumeEv r) = true := by
  cases r <;> rfl

theorem liftMainEv_stage (r : REv) : isMainStageEv (liftMainEv r) = true := by
  cases r <;> rfl

theorem artifactStep_stage (jp : List Char → Option Json)
    (iv : Nat → CallResult GenResponse) (j : Nat) :
    ∀ e ∈ (artifactStep jp iv j).2, isGithubStageEv e = true := by
  intro e he
  have hlift : ∀ x ∈ (generateContentWithRetry iv 3 2000).trace.map (liftArtifactEv j),
      isGithubStageEv x = true := by
    intro x hx
    obtain ⟨r, -, rfl⟩ := List.mem_map.mp hx
    exact liftArtifactEv_stage j r
  unfold artifactStep at he
  split at he
  · split at he
    · split at he
      · rcases List.mem_append.mp he with h | h
        · exact hlift e h
        · rw [List.mem_singleton.mp h]; rfl
      · exact hlift e he
    · rcases List.mem_append.mp he with h | h
      · exact hlift e h
      · rw [List.mem_singleton.mp h]; rfl
  · exact hlift e he
  · exact hlift e he

theorem analyzeGithubReposWithAPI_stage (env : ProfileEnv) :
    ∀ e ∈ (analyzeGithubReposWithAPI env).2, isGithubStageEv e = true := by
  intro e he
  simp only [analyzeGithubReposWithAPI] at he
  split at he
  · simp at he
  · split at he
    · simp at he
    · have hfetch : ∀ l : List RepoRef,
          e ∈ ((List.range l.length).map
            (fun i => (fetchGithubRepoData (env.fetchEnv i), Ev.githubFetch i))).map
              Prod.snd → isGithubStageEv e = true := by
        intro l hl
        rw [List.map_map] at hl
        obtain ⟨i, -, hie⟩ := List.mem_map.mp hl
        rw [← hie]
        rfl
      split at he
      · exact hfetch _ he
      · rcases List.mem_append.mp he with h | h
        · exact hfetch _ h
        · obtain ⟨l, hl, hel⟩ := evJoin_mem h
          obtain ⟨st, hst, rfl⟩ := List.mem_map.mp hl
          obtain ⟨jj, -, rfl⟩ := List.mem_map.mp hst
          exact artifactStep_stage env.jsonParse (env.artifactInvoke jj) jj e hel

theorem analyzeResumeHighlights_stage (rp : Bool) (fp : Except JsError Unit)
    (iv : Nat → CallResult GenResponse) (jp : List Char → Option Json) :
    ∀ e ∈ (analyzeResumeHighlights rp fp iv jp).2, isResumeStageEv e = true := by
  intro e he
  have hlift : ∀ x ∈ (generateContentWithRetry iv 3 2000).trace.map liftResumeEv,
      isResumeStageEv x = true := by
    intro x hx
    obtain ⟨r, -, rfl⟩ := List.mem_map.mp hx
    exact liftResumeEv_stage r
  unfold analyzeResumeHighlights at he
  split at he
  · simp at he
  · split at he
    · simp at he
    · split at he
      · split at he
        · exact hlift e he
        · split at he
          · exact hlift e he
          · exact hlift e he
      · exact hlift e he
      · exact hlift e he

theorem mainStage_stage (env : ProfileEnv) (gh : List Json) (rh : Option Json) :
    ∀ e ∈ (mainStage env gh rh).2, isMainStageEv e = true := by
  intro e he
  unfold mainStage at he
  split at he
  · simp at he
  · simp only [List.mem_cons] at he
    rcases he with rfl | rfl | he
    · rfl
    · rfl
    · obtain ⟨r, -, rfl⟩ := List.mem_map.mp he
      exact liftMainEv_stage r

theorem mainStage_trace_shape (env : ProfileEnv) (gh : List Json) (rh : Option Json) :
    (mainStage env gh rh).2 = [] ∨
    ∃ rest, (mainStage env gh rh).2 = Ev.promptBuilt :: rest := by
  unfold mainStage
  split
  · exact .inl rfl
  · exact .inr ⟨_, rfl⟩

theorem resumePartGate_ok (env : ProfileEnv)
    (h : env.resumePresent → env.mainFilePart = .ok ()) :
    resumePartGate env = .ok () := by
  unfold resumePartGate
  cases hb : env.resumePresent
  · rfl
  · simpa [hb] using h hb

theorem mainStage_gate_shape (env : ProfileEnv) (gh : List Json) (rh : Option Json)
    (h : resumePartGate env = .ok ()) :
    ∃ rest, (mainStage env gh rh).2 = Ev.promptBuilt :: rest := by
  unfold mainStage
  rw [h]
  exact ⟨_, rfl⟩

theorem analyzeProfile_fst (env : ProfileEnv) :
    (analyzeProfile env).1
      = (mainStage env (analyzeGithubReposWithAPI env).1
          (caughtOption (resumeChannel env).1)).1 := rfl

theorem analyzeProfile_snd (env : ProfileEnv) :
    (analyzeProfile env).2
      = (analyzeGithubReposWithAPI env).2
        ++ ((if 0 < (analyzeGithubReposWithAPI env).1.length
              then [Ev.resumeSleep 1500] else []) ++ (resumeChannel env).2)
        ++ (mainStage env (analyzeGithubReposWithAPI env).1
            (caughtOption (resumeChannel env).1)).2 := rfl

/-- **C2.** Sequential staging of the primary pipeline (current revision of
`analyzeProfile`; the older revision ran the side channels concurrently and
is superseded): the event trace of every run decomposes as GitHub-batch
events, then resume-segment events, then capstone events; the capstone
trace, when nonempty, begins with the prompt construction, so the main
prompt is built and the capstone call issued only after both side channels
have resolved — and it is reached (non-fatally) whatever the side channels
did, whenever the capstone's own file conversion does not reject. -/
theorem analyzeProfile_sequential_staging (env : ProfileEnv) :
    ∃ tG tR tM,
      (analyzeProfile env).2 = tG ++ tR ++ tM ∧
      (∀ e ∈ tG, isGithubStageEv e = true) ∧
      (∀ e ∈ tR, isResumeStageEv e = true) ∧
      (∀ e ∈ tM, isMainStageEv e = true) ∧
      (tM = [] ∨ ∃ rest, tM = Ev.promptBuilt :: rest) ∧
      ((env.resumePresent → env.mainFilePart = .ok ()) →
        ∃ rest, tM = Ev.promptBuilt :: rest) := by
  refine ⟨(analyzeGithubReposWithAPI env).2,
    (if 0 < (analyzeGithubReposWithAPI env).1.length
        then [Ev.resumeSleep 1500] else []) ++ (resumeChannel env).2,
    (mainStage env (analyzeGithubReposWithAPI env).1
      (caughtOption (resumeChannel env).1)).2,
    analyzeProfile_snd env,
    analyzeGithubReposWithAPI_stage env, ?_,
    mainStage_stage env _ _,
    mainStage_trace_shape env _ _,
    fun h => mainStage_gate_shape env _ _ (resumePartGate_ok env h)⟩
  intro e he
  rcases List.mem_append.mp he with h | h
  · split at h
    · rw [List.mem_singleton.mp h]
      rfl
    · simp at h
  · exact analyzeResumeHighlights_stage env.resumePresent env.resumeFilePart
      env.resumeInvoke env.jsonParse e h

theorem githubEv_not_mainAttempt (x : Ev) (h : isGithubStageEv x = true) :
    isMainAttemptEv x = false := by
  cases x <;> simp_all [isGithubStageEv, isMainAttemptEv]

theorem resumeEv_not_mainAttempt (x : Ev) (h : isResumeStageEv x = true) :
    isMainAttemptEv x = false := by
  cases x <;> simp_all [isResumeStageEv, isMainAttemptEv]

theorem mainStage_thrown (env : ProfileEnv) (gh : List Json) (rh : Option Json)
    (e : JsError)
    (h : (generateContentWithRetry env.mainInvoke 4 3000).result = .thrown e) :
    isErrorResult (mainStage env gh rh).1 = true ∧
    (resumePartGate env = .ok () → (mainStage env gh rh).1 = .error e) := by
  constructor
  · unfold mainStage
    split
    · rfl
    · simp only [h]
      rfl
  · intro hg
    unfold mainStage
    rw [hg]
    simp only [h]

theorem mainStage_noText (env : ProfileEnv) (gh : List Json) (rh : Option Json)
    (resp : GenResponse)
    (h : (generateContentWithRetry env.mainInvoke 4 3000).result = .ok resp)
    (ht : textTruthy resp.text = false) :
    isErrorResult (mainStage env gh rh).1 = true := by
  unfold mainStage
  split
  · rfl
  · simp only [h, ht, Bool.not_false, if_true]
    rfl

theorem mainStage_parseFail (env : ProfileEnv) (gh : List Json) (rh : Option Json)
    (resp : GenResponse) (t : List Char)
    (h : (generateContentWithRetry env.mainInvoke 4 3000).result = .ok resp)
    (ht : resp.text = some t) (hp : env.jsonParse (cleanJson t) = none) :
    isErrorResult (mainStage env gh rh).1 = true := by
  by_cases htt : textTruthy resp.text = true
  · unfold mainStage
    split
    · rfl
    · simp only [h, htt, Bool.not_true, if_false, ht, Option.getD_some, hp]
      split <;> rfl
  · exact mainStage_noText env gh rh resp h (by simpa using htt)

/-- **C4.** The capstone stage is all-or-nothing: whenever the wrapped
primary synthesis call rethrows an error, or returns a response with
absent/empty text, or returns text that fails to parse, `analyzeProfile`
propagates an error to its caller and never returns a (partial)
`AnalysisResult`; in the throw case the propagated error is the thrown one
whenever the capstone stage is reached at all.  In particular (scenario 4),
if the call throws a non-quota error on the first attempt — even with the
retry budget of 4 — exactly one underlying attempt is made and that very
error propagates. -/
theorem analyzeProfile_capstone_all_or_nothing (env : ProfileEnv) :
    (∀ e, (generateContentWithRetry env.mainInvoke 4 3000).result = .thrown e →
      isErrorResult (analyzeProfile env).1 = true ∧
      ((env.resumePresent → env.mainFilePart = .ok ()) →
        (analyzeProfile env).1 = .error e)) ∧
    (∀ resp, (generateContentWithRetry env.mainInvoke 4 3000).result = .ok resp →
      textTruthy resp.text = false → isErrorResult (analyzeProfile env).1 = true) ∧
    (∀ resp t, (generateContentWithRetry env.mainInvoke 4 3000).result = .ok resp →
      resp.text = some t → env.jsonParse (cleanJson t) = none →
      isErrorResult (analyzeProfile env).1 = true) ∧
    (∀ e, env.mainInvoke 0 = .thrown e → isQuotaError e = false →
      (env.resumePresent → env.mainFilePart = .ok ()) →
      (analyzeProfile env).1 = .error e ∧
      ((analyzeProfile env).2.filter isMainAttemptEv).length = 1) := by
  refine ⟨?_, ?_, ?_, ?_⟩
  · intro e h
    rw [analyzeProfile_fst]
    obtain ⟨h1, h2⟩ := mainStage_thrown env _ _ e h
    exact ⟨h1, fun hg => h2 (resumePartGate_ok env hg)⟩
  · intro resp h ht
    rw [analyzeProfile_fst]
    exact mainStage_noText env _ _ resp h ht
  · intro resp t h ht hp
    rw [analyzeProfile_fst]
    exact mainStage_parseFail env _ _ resp t h ht hp
  · intro e he hq hg
    have hr := retryNonQuotaFirst env.mainInvoke 4 3000 e he hq (by omega)
    have hres : (generateContentWithRetry env.mainInvoke 4 3000).result = .thrown e := by
      rw [hr]
    refine ⟨?_, ?_⟩
    · rw [analyzeProfile_fst]
      exact (mainStage_thrown env _ _ e hres).2 (resumePartGate_ok env hg)
    · rw [analyzeProfile_snd, List.filter_append, List.filter_append]
      have hG : (analyzeGithubReposWithAPI env).2.filter isMainAttemptEv = [] := by
        rw [List.filter_eq_nil_iff]
        intro x hx
        simp [githubEv_not_mainAttempt x (analyzeGithubReposWithAPI_stage env x hx)]
      have hRs : ((if 0 < (analyzeGithubReposWithAPI env).1.length
          then [Ev.resumeSleep 1500] else [])
            ++ (resumeChannel env).2).filter isMainAttemptEv = [] := by
        rw [List.filter_append, List.filter_eq_nil_iff.mpr, List.filter_eq_nil_iff.mpr,
          List.append_nil]
        · intro x hx
          simp [resumeEv_not_mainAttempt x
            (analyzeResumeHighlights_stage env.resumePresent env.resumeFilePart
              env.resumeInvoke env.jsonParse x hx)]
        · intro x hx
          split at hx
          · rw [List.mem_singleton.mp hx]
            simp [isMainAttemptEv]
          · simp at hx
      have hM : (mainStage env (analyzeGithubReposWithAPI env).1
          (caughtOption (resumeChannel env).1)).2
            = [Ev.promptBuilt, Ev.mainSleep 2000, Ev.mainAttempt 0] := by
        unfold mainStage
        rw [resumePartGate_ok env hg, hr]
        rfl
      rw [hG, hRs, hM]
      rfl

/-- Witness for C4 at a concrete environment whose capstone call throws a
non-quota (500) error on the first attempt. -/
theorem analyzeProfile_capstone_all_or_nothing_witness :
    (analyzeProfile cexEnvMainThrows).1 = .error nonQuotaErr500 ∧
    ((analyzeProfile cexEnvMainThrows).2.filter isMainAttemptEv).length = 1 :=
  (analyzeProfile_capstone_all_or_nothing cexEnvMainThrows).2.2.2 nonQuotaErr500
    rfl (by decide) (fun _ => rfl)

theorem overlayResult_obj_ok (gh : List Json) (rh : Option Json)
    (fs : List (String × Json)) :
    ∃ j, overlayResult gh rh (.obj fs) = .ok j := by
  obtain ⟨fs1, h1⟩ : ∃ fs1,
      (if 0 < gh.length then jsSetProp (Json.obj fs) "github_projects" (Json.arr gh)
       else .ok (.obj fs)) = .ok (.obj fs1) := by
    by_cases hg : 0 < gh.length
    · exact ⟨setField fs "github_projects" (.arr gh), by rw [if_pos hg]; rfl⟩
    · exact ⟨fs, by rw [if_neg hg]⟩
  rw [overlayResult, h1]
  rcases rh with - | rhv
  · exact ⟨.obj fs1, rfl⟩
  · by_cases ht : rhv.truthy = true
    · exact ⟨.obj (setField fs1 "resume_highlights" rhv), by simp only [ht, if_true]; rfl⟩
    · exact ⟨.obj fs1, by simp only [Bool.not_eq_true] at ht; simp only [ht]; rfl⟩

/-- **C1, counterexample.** With the capstone response text `"\x7b\x7d"` —
a syntactically valid JSON object missing *every* schema-required top-level
field — `analyzeProfile` returns it as a successful `AnalysisResult`
instead of treating the call as failed: the code performs no required-field
validation after `JSON.parse`. -/
theorem analyzeProfile_missing_required_returned :
    cexEnvMissingFields.jsonParse (cleanJson "\x7b\x7d".data) = some (.obj []) ∧
    hasAllRequiredFields (.obj []) = false ∧
    (analyzeProfile cexEnvMissingFields).1 = .ok (.obj []) :=
  ⟨rfl, rfl, rfl⟩

/-- **C1, amended.** `analyzeProfile` performs no client-side
required-field validation: whenever the capstone stage is reached, the
wrapped call returns a response with nonempty text and the text parses as a
JSON object, the call is treated as a success and the parsed object —
overlaid only with the side-channel fields — is returned, regardless of
which top-level fields are present.  (Required-field enforcement is
requested of the provider via `responseSchema` but never checked by the
client; the call is treated as a failure exactly when the wrapped call
throws, the text is absent or empty, or the text fails to parse — the
failure cases settled under C4.) -/
theorem analyzeProfile_no_required_field_validation (env : ProfileEnv)
    (resp : GenResponse) (t : List Char) (fs : List (String × Json))
    (hgate : env.resumePresent → env.mainFilePart = .ok ())
    (hok : (generateContentWithRetry env.mainInvoke 4 3000).result = .ok resp)
    (ht : resp.text = some t) (htt : t.isEmpty = false)
    (hp : env.jsonParse (cleanJson t) = some (.obj fs)) :
    ∃ j, overlayResult (analyzeGithubReposWithAPI env).1
        (caughtOption (resumeChannel env).1) (.obj fs) = .ok j ∧
      (analyzeProfile env).1 = .ok j := by
  obtain ⟨j, hj⟩ := overlayResult_obj_ok (analyzeGithubReposWithAPI env).1
    (caughtOption (resumeChannel env).1) fs
  refine ⟨j, hj, ?_⟩
  rw [analyzeProfile_fst]
  unfold mainStage
  rw [resumePartGate_ok env hgate]
  simp only [hok, ht, textTruthy, htt, Bool.not_false, if_false, Option.getD_some, hp, hj]
  rfl

/-- Witness for C1 (amended) at the empty-object environment. -/
theorem analyzeProfile_no_required_field_validation_witness :
    ∃ j, overlayResult (analyzeGithubReposWithAPI cexEnvMissingFields).1
        (caughtOption (resumeChannel cexEnvMissingFields).1) (.obj []) = .ok j ∧
      (analyzeProfile cexEnvMissingFields).1 = .ok j :=
  analyzeProfile_no_required_field_validation cexEnvMissingFields
    ⟨some "\x7b\x7d".data, none⟩ "\x7b\x7d".data [] (fun _ => rfl) rfl rfl rfl rfl

theorem genTopics_isOk (invoke : Nat → CallResult GenResponse)
    (jsonParse : List Char → Option Json) :
    (generateInterviewTopics invoke jsonParse).isOk = true := by
  unfold generateInterviewTopics
  split
  · split
    · rfl
    · rfl
  · rfl
  · rfl

theorem genTopics_thrown (invoke : Nat → CallResult GenResponse)
    (jsonParse : List Char → Option Json) (e : JsError)
    (h : (generateContentWithRetry invoke 3 2000).result = .thrown e) :
    generateInterviewTopics invoke jsonParse = .ok (.arr []) := by
  unfold generateInterviewTopics
  rw [h]

theorem genSpeech_isOk (invoke : Nat → CallResult GenResponse) :
    (generateSpeech invoke).isOk = true := by
  unfold generateSpeech
  split <;> rfl

theorem genSpeech_thrown (invoke : Nat → CallResult GenResponse) (e : JsError)
    (h : (generateContentWithRetry invoke 3 2000).result = .thrown e) :
    generateSpeech invoke = .ok none := by
  unfold generateSpeech
  rw [h]

theorem transcribe_isOk (invoke : Nat → CallResult GenResponse) :
    (transcribeAudio invoke).isOk = true := by
  unfold transcribeAudio
  split <;> rfl

theorem transcribe_thrown (invoke : Nat → CallResult GenResponse) (e : JsError)
    (h : (generateContentWithRetry invoke 3 2000).result = .thrown e) :
    transcribeAudio invoke = .ok [] := by
  unfold transcribeAudio
  rw [h]

theorem portfolio_isOk (invoke : Nat → CallResult GenResponse) :
    (generatePortfolioHtml invoke).isOk = true := by
  unfold generatePortfolioHtml
  split <;> rfl

theorem portfolio_thrown (invoke : Nat → CallResult GenResponse) (e : JsError)
    (h : (generateContentWithRetry invoke 3 2000).result = .thrown e) :
    generatePortfolioHtml invoke = .ok portfolioErrorFragment := by
  unfold generatePortfolioHtml
  rw [h]

theorem resumeHighlights_isOk (rp : Bool) (iv : Nat → CallResult GenResponse)
    (jp : List Char → Option Json) :
    ((analyzeResumeHighlights rp (.ok ()) iv jp).1).isOk = true := by
  unfold analyzeResumeHighlights
  split
  · rfl
  · split
    · next e heq => simp at heq
    · split
      · split
        · rfl
        · split <;> rfl
      · rfl
      · rfl

theorem resumeHighlights_thrown (rp : Bool) (iv : Nat → CallResult GenResponse)
    (jp : List Char → Option Json) (e : JsError)
    (h : (generateContentWithRetry iv 3 2000).result = .thrown e) :
    (analyzeResumeHighlights rp (.ok ()) iv jp).1 = .ok none := by
  unfold analyzeResumeHighlights
  split
  · rfl
  · rw [h]

theorem genQuestion_thrown (invoke : Nat → CallResult GenResponse)
    (jsonParse : List Char → Option Json) (e : JsError)
    (h : (generateContentWithRetry invoke 3 2000).result = .thrown e) :
    generateInterviewQuestion invoke jsonParse = .error e := by
  unfold generateInterviewQuestion
  rw [h]

theorem evalAnswer_thrown (invoke : Nat → CallResult GenResponse)
    (jsonParse : List Char → Option Json) (e : JsError)
    (h : (generateContentWithRetry invoke 3 2000).result = .thrown e) :
    evaluateInterviewAnswer invoke jsonParse = .error e := by
  unfold evaluateInterviewAnswer
  rw [h]

/-- **C9, counterexample.** `generateInterviewQuestion` contains no error
handling: when the wrapped model call rethrows a non-quota (500) error, the
function propagates that error to its caller instead of returning a
fallback value — contradicting "never propagates a failure to its
caller". -/
theorem generateInterviewQuestion_propagates :
    generateInterviewQuestion invokeThrow500 jsonParseCex
      = .error nonQuotaErr500 := rfl

/-- **C9, amended.** The best-effort components that *do* catch — topic
generation, speech synthesis, transcription, the portfolio generator, and
the resume segment analyzer after a successful file conversion — never
propagate a failure: each returns its fallback (`[]`, `null`, `""`, the
fixed minimal HTML error fragment, `null` respectively), shown here both as
"always resolves" and with the fallback value produced when the wrapped
call throws.  Question generation and answer evaluation, however, have no
`try/catch` and propagate a wrapped-call failure unchanged (and the resume
analyzer propagates a failure of the file conversion itself, which runs
before its `try`). -/
theorem bestEffort_components_fallback :
    (∀ (invoke : Nat → CallResult GenResponse) (jsonParse : List Char → Option Json),
      (generateInterviewTopics invoke jsonParse).isOk = true ∧
      ∀ e, (generateContentWithRetry invoke 3 2000).result = .thrown e →
        generateInterviewTopics invoke jsonParse = .ok (.arr [])) ∧
    (∀ invoke : Nat → CallResult GenResponse,
      (generateSpeech invoke).isOk = true ∧
      ∀ e, (generateContentWithRetry invoke 3 2000).result = .thrown e →
        generateSpeech invoke = .ok none) ∧
    (∀ invoke : Nat → CallResult GenResponse,
      (transcribeAudio invoke).isOk = true ∧
      ∀ e, (generateContentWithRetry invoke 3 2000).result = .thrown e →
        transcribeAudio invoke = .ok []) ∧
    (∀ invoke : Nat → CallResult GenResponse,
      (generatePortfolioHtml invoke).isOk = true ∧
      ∀ e, (generateContentWithRetry invoke 3 2000).result = .thrown e →
        generatePortfolioHtml invoke = .ok portfolioErrorFragment) ∧
    (∀ (rp : Bool) (iv : Nat → CallResult GenResponse) (jp : List Char → Option Json),
      ((analyzeResumeHighlights rp (.ok ()) iv jp).1).isOk = true ∧
      ∀ e, (generateContentWithRetry iv 3 2000).result = .thrown e →
        (analyzeResumeHighlights rp (.ok ()) iv jp).1 = .ok none) ∧
    (∀ (invoke : Nat → CallResult GenResponse) (jsonParse : List Char → Option Json)
        (e : JsError),
      (generateContentWithRetry invoke 3 2000).result = .thrown e →
        generateInterviewQuestion invoke jsonParse = .error e ∧
        evaluateInterviewAnswer invoke jsonParse = .error e) :=
  ⟨fun invoke jsonParse => ⟨genTopics_isOk invoke jsonParse,
      fun e h => genTopics_thrown invoke jsonParse e h⟩,
   fun invoke => ⟨genSpeech_isOk invoke, fun e h => genSpeech_thrown invoke e h⟩,
   fun invoke => ⟨transcribe_isOk invoke, fun e h => transcribe_thrown invoke e h⟩,
   fun invoke => ⟨portfolio_isOk invoke, fun e h => portfolio_thrown invoke e h⟩,
   fun rp iv jp => ⟨resumeHighlights_isOk rp iv jp,
      fun e h => resumeHighlights_thrown rp iv jp e h⟩,
   fun invoke jsonParse e h => ⟨genQuestion_thrown invoke jsonParse e h,
      evalAnswer_thrown invoke jsonParse e h⟩⟩

/-- Witness for C9 (amended) at the always-throwing 500 invoker. -/
theorem bestEffort_components_fallback_witness :
    generateInterviewTopics invokeThrow500 jsonParseCex = .ok (.arr []) ∧
    generateSpeech invokeThrow500 = .ok none ∧
    transcribeAudio invokeThrow500 = .ok [] ∧
    generatePortfolioHtml invokeThrow500 = .ok portfolioErrorFragment ∧
    (analyzeResumeHighlights true (.ok ()) invokeThrow500 jsonParseCex).1 = .ok none ∧
    evaluateInterviewAnswer invokeThrow500 jsonParseCex = .error nonQuotaErr500 := by
  have h := bestEffort_components_fallback
  have hres : (generateContentWithRetry invokeThrow500 3 2000).result
      = .thrown nonQuotaErr500 := rfl
  exact ⟨(h.1 invokeThrow500 jsonParseCex).2 nonQuotaErr500 hres,
    (h.2.1 invokeThrow500).2 nonQuotaErr500 hres,
    (h.2.2.1 invokeThrow500).2 nonQuotaErr500 hres,
    (h.2.2.2.1 invokeThrow500).2 nonQuotaErr500 hres,
    (h.2.2.2.2.1 true invokeThrow500 jsonParseCex).2 nonQuotaErr500 hres,
    (h.2.2.2.2.2 invokeThrow500 jsonParseCex nonQuotaErr500 hres).2⟩

/-- Witness for C2 at a concrete environment. -/
theorem analyzeProfile_sequential_staging_witness :
    ∃ tG tR tM,
      (analyzeProfile cexEnvMainThrows).2 = tG ++ tR ++ tM ∧
      (∀ e ∈ tG, isGithubStageEv e = true) ∧
      (∀ e ∈ tR, isResumeStageEv e = true) ∧
      (∀ e ∈ tM, isMainStageEv e = true) ∧
      (tM = [] ∨ ∃ rest, tM = Ev.promptBuilt :: rest) ∧
      ((cexEnvMainThrows.resumePresent → cexEnvMainThrows.mainFilePart = .ok ()) →
        ∃ rest, tM = Ev.promptBuilt :: rest) :=
  analyzeProfile_sequential_staging cexEnvMainThrows

end CareerCompass
